import Mathlib

/-
Verification development for the NCCN RAG chatbot repository.

Shallow embedding of the three source files:
  * `app.py`        : chunking, index build/persist/load, retrieval
  * `final_extract.py` / `Automated_script.py` : clip-rectangle geometry,
    pixel crop box, corpus append, external-editor session

External collaborators (PyMuPDF text extraction, PIL image crop, the
Bedrock embedding / generation models, faiss persistence, pickle) are
modelled as function parameters or explicit data, never reimplemented;
the geometry and list manipulations are translated from the source.
Python floats are modelled as exact rationals, Python ints as Int/Nat.
-/

-- ---------------------------------------------------------------------
-- Configuration constants (app.py lines 19-21)
-- ---------------------------------------------------------------------

def CHUNK_SIZE : Nat := 600

def CHUNK_OVERLAP : Nat := 100

def TOP_K : Nat := 10

-- ---------------------------------------------------------------------
-- Text utilities (app.py lines 35-50, chunk_text)
-- ---------------------------------------------------------------------

/-- Python `" ".flatten(ws)`. -/
def joinSpace (ws : List String) : String := String.intercalate " " ws

/-- Python `page.split()` with no argument: split on whitespace runs and
drop empty pieces. -/
def wordsOf (page : String) : List String :=
  (page.split Char.isWhitespace).filter (fun w => w ≠ "")

/-- The `while start < len(words)` loop body of `chunk_text` (app.py
lines 44-48), at the fixed configuration `CHUNK_SIZE`/`CHUNK_OVERLAP`
used by the source.  `words[start:end]` with non-negative bounds is
`(words.drop start).take (end - start)`. -/
def windowWalk (words : List String) (start : Nat) : List String :=
  if _h : start < words.length then
    joinSpace ((words.drop start).take CHUNK_SIZE) ::
      windowWalk words (start + (CHUNK_SIZE - CHUNK_OVERLAP))
  else
    []
termination_by words.length - start
decreasing_by
  simp only [CHUNK_SIZE, CHUNK_OVERLAP]
  omega

/-- `chunk_text` (app.py lines 35-50): split the corpus text on the page
delimiter, skip blank segments (`if not page.strip(): continue`), and
collect the sliding windows of every remaining segment in order. -/
def chunk_text (text : String) : List String :=
  (text.splitOn "=== PAGE").foldl
    (fun chunks page =>
      if page.trim = "" then chunks
      else chunks ++ windowWalk (wordsOf page) 0)
    []

-- ---------------------------------------------------------------------
-- Spec-side description of the window starts (spec section 4.5):
-- "windows start at 0, S-O, 2(S-O), ... for every start index strictly
-- less than the segment's word count".
-- ---------------------------------------------------------------------

/-- Spec-side definition: the window start indices `0, S-O, 2(S-O), ...`
that are strictly below `n`, where `S-O = CHUNK_SIZE - CHUNK_OVERLAP`. -/
def windowStarts (n : Nat) : List Nat :=
  (List.range ((n + (CHUNK_SIZE - CHUNK_OVERLAP) - 1) / (CHUNK_SIZE - CHUNK_OVERLAP))).map
    (fun k => k * (CHUNK_SIZE - CHUNK_OVERLAP))

/-- Proof-internal recursive form of the start indices, mirroring the
recursion of `windowWalk`. -/
def startsFrom (n start : Nat) : List Nat :=
  if _h : start < n then
    start :: startsFrom n (start + (CHUNK_SIZE - CHUNK_OVERLAP))
  else
    []
termination_by n - start
decreasing_by
  simp only [CHUNK_SIZE, CHUNK_OVERLAP]
  omega

-- ---------------------------------------------------------------------
-- The chunking loop under an arbitrary (size, overlap) configuration.
-- Python ints are modelled as Int; a fuel argument makes the possibly
-- non-terminating `while` loop a total function: `none` means the loop
-- has not finished within `fuel` iterations.
-- ---------------------------------------------------------------------

/-- Python slice index resolution for `l[a:b]`: a negative index counts
from the end (clamped at 0), a non-negative one is clamped at `len`. -/
def sliceIndex (n : Nat) (i : Int) : Nat :=
  if i < 0 then (max ((n : Int) + i) 0).toNat else min i.toNat n

/-- Python list slice `l[a:b]`. -/
def pySlice {α : Type} (l : List α) (a b : Int) : List α :=
  let s := sliceIndex l.length a
  let e := sliceIndex l.length b
  (l.drop s).take (e - s)

/-- The `while start < len(words)` loop of `chunk_text` with the chunk
size `S` and overlap `O` left as configuration parameters (Python ints).
One unit of fuel per iteration; `none` means the fuel ran out with the
loop guard still true. -/
def windowLoopF (S O : Int) (words : List String) (start : Int) : Nat → Option (List String)
  | 0 => none
  | fuel + 1 =>
    if start < (words.length : Int) then
      match windowLoopF S O words (start + (S - O)) fuel with
      | none => none
      | some rest => some (joinSpace (pySlice words start (start + S)) :: rest)
    else
      some []

/-- The configured window walk never finishes, whatever fuel it is
given: the shape of a non-terminating `while` loop. -/
def loopDiverges (S O : Int) (words : List String) : Prop :=
  ∀ fuel : Nat, windowLoopF S O words 0 fuel = none

-- ---------------------------------------------------------------------
-- Geometry (final_extract.py lines 30-61, Automated_script.py 39-76)
-- ---------------------------------------------------------------------

/-- A fitz rectangle `(x0, y0, x1, y1)`; PDF coordinates modelled as
exact rationals. -/
structure Rect where
  x0 : ℚ
  y0 : ℚ
  x1 : ℚ
  y1 : ℚ
deriving DecidableEq, Repr

/-- `extract_text_with_margins` (final_extract.py lines 30-43).  The
PyMuPDF call `page.get_text("text", clip=...)` is the collaborator
`get_text`; the page's `rect` is passed in directly.  Returns
`(text, clipped_rect)` exactly as the source does. -/
def extract_text_with_margins (get_text : Rect → String) (rect : Rect)
    (margin_left margin_top margin_right margin_bottom : ℚ) : String × Rect :=
  let clipped_rect : Rect :=
    { x0 := rect.x0 + margin_left
      y0 := rect.y0 + margin_top
      x1 := rect.x1 - margin_right
      y1 := rect.y1 - margin_bottom }
  (get_text clipped_rect, clipped_rect)

/-- Default margins of Automated_script.py (lines 31-34). -/
def MARGIN_LEFT : ℚ := 0

def MARGIN_RIGHT : ℚ := 0

def MARGIN_TOP : ℚ := 60

def MARGIN_BOTTOM : ℚ := 30

/-- `extract_clip_rect` (Automated_script.py lines 39-53). -/
def extract_clip_rect (rect : Rect) : Rect :=
  { x0 := rect.x0 + MARGIN_LEFT
    y0 := rect.y0 + MARGIN_TOP
    x1 := rect.x1 - MARGIN_RIGHT
    y1 := rect.y1 - MARGIN_BOTTOM }

/-- Python `int(q)` on a (here, rational-modelled) float: truncation
toward zero.  A rational is stored with positive denominator, so
truncating division of numerator by denominator is exactly that. -/
def int_trunc (q : ℚ) : Int := Int.tdiv q.num (q.den : Int)

/-- `dpi_scale = page_img.size[1] / pdf_page.rect.height`
(final_extract.py line 51, Automated_script.py line 66). -/
def dpi_scale (imgHeight pageHeight : ℚ) : ℚ := imgHeight / pageHeight

/-- The `crop_box` tuple of `render_clipped_image` (final_extract.py
lines 54-59, Automated_script.py lines 69-74): each clip coordinate is
multiplied by the scale and truncated with `int(...)`.  Note the tuple
is built from the clip rectangle and scale alone - the rendered image
bounds are not consulted. -/
def crop_box (clip_rect : Rect) (scale : ℚ) : Int × Int × Int × Int :=
  (int_trunc (clip_rect.x0 * scale),
   int_trunc (clip_rect.y0 * scale),
   int_trunc (clip_rect.x1 * scale),
   int_trunc (clip_rect.y1 * scale))

/-- `render_clipped_image` with the PIL `page_img.crop` call as the
collaborator `crop`: the computed box is handed to `crop` unchanged. -/
def render_clipped_image {α : Type} (crop : Int × Int × Int × Int → α)
    (clip_rect : Rect) (imgHeight pageHeight : ℚ) : α :=
  crop (crop_box clip_rect (dpi_scale imgHeight pageHeight))

-- ---------------------------------------------------------------------
-- Corpus store (final_extract.py lines 123-127, Automated_script.py
-- lines 121-125, append_to_output)
-- ---------------------------------------------------------------------

/-- `append_to_output` (both curation scripts): the three `f.write`
calls appended to the current file content.  `content.strip()` is
`String.trim`, `f"... {page_num} ..."` interpolates `toString`. -/
def append_to_output (file : String) (page_num : Nat) (content : String) : String :=
  file ++ ("\n\n=== PAGE " ++ toString page_num ++ " ===\n")
       ++ (content.trim ++ "\n")
       ++ "=== END PAGE ===\n"

/-- Spec-side framing of one page block: start line with the literal
page marker and the ordinal, the trimmed content, the literal end
marker. -/
def page_block (page_num : Nat) (content : String) : String :=
  "\n\n=== PAGE " ++ toString page_num ++ " ===\n" ++ content.trim ++ "\n"
    ++ "=== END PAGE ===\n"

-- ---------------------------------------------------------------------
-- External editor session (final_extract.py lines 102-121,
-- launch_editor)
-- ---------------------------------------------------------------------

/-- Outcome of `subprocess.call([editor, tf_name])`: either the editor
program starts and runs to some exit code, leaving the temporary file
holding `edited`, or spawning it raises (e.g. `FileNotFoundError` when
the editor binary does not exist). -/
inductive EditorRun where
  | runs (exit_code : Int) (edited : String)
  | startFailure
deriving DecidableEq

/-- Observable outcome of `launch_editor`: `returned` is the function's
return value (`none` when an exception propagates out of it),
`tempRemoved` records whether the `delete=False` temporary file was
unlinked, `tempContent` its content when it survives. -/
structure LaunchResult where
  returned : Option String
  tempRemoved : Bool
  tempContent : Option String
deriving DecidableEq

/-- `launch_editor` (final_extract.py lines 102-121).  The temp file is
created and seeded with `initial_text` (`tf.write` / `tf.close` inside
`try/finally`).  Then `subprocess.call` runs: if spawning raises, the
exception propagates out of `launch_editor` before the `os.unlink` line
is reached, so the temporary file is left behind; if the editor starts
(whatever its exit code, which the source ignores), the file is read
back and `os.unlink` removes it (its own failure being swallowed by
`except Exception: pass`). -/
def launch_editor (initial_text : String) (ed : EditorRun) : LaunchResult :=
  let temp_content := initial_text
  match ed with
  | .startFailure =>
      { returned := none, tempRemoved := false, tempContent := some temp_content }
  | .runs _ edited =>
      { returned := some edited, tempRemoved := true, tempContent := none }

-- ---------------------------------------------------------------------
-- Vector index (app.py lines 71-102)
-- ---------------------------------------------------------------------

/-- The two persisted artifacts: `faiss.index` written by
`faiss.write_index` and `chunks.pkl` written by `pickle.dump`.  Both
collaborators are modelled, per the spec's section 4.6, as lossless
slots holding the vector table and the chunk list. -/
structure Store where
  faiss_index_file : Option (List (List ℚ))
  chunks_file : Option (List String)

/-- Squared Euclidean distance, the `IndexFlatL2` metric. -/
def sqDist (q v : List ℚ) : ℚ :=
  (List.zipWith (fun a b => (a - b) ^ 2) q v).sum

/-- Modelled from faiss's documented `IndexFlatL2.search` behaviour for
a single query: exactly `k` id slots, the stored vectors ordered by
ascending squared L2 distance first, and - when fewer than `k` vectors
are stored - the remaining slots padded with id `-1`. -/
def faiss_search (xb : List (List ℚ)) (q : List ℚ) (k : Nat) : List Int :=
  let scored := (xb.map (sqDist q)).enum
  let sorted := scored.mergeSort
    (fun a b => decide (a.2 < b.2 ∨ (a.2 = b.2 ∧ a.1 ≤ b.1)))
  let ids := (sorted.take k).map (fun p => (p.1 : Int))
  ids ++ List.replicate (k - ids.length) (-1)

/-- `build_and_save_index` (app.py lines 71-87): chunk the corpus text,
embed every chunk in order (the Bedrock embedding model is the
collaborator `embed`), persist both artifacts, and return the pair.
`st.info`/`st.success` UI calls have no data effect. -/
def build_and_save_index (embed : String → List ℚ) (text : String) (fs : Store) :
    (List (List ℚ) × List String) × Store :=
  let chunks := chunk_text text
  let embeddings := chunks.map embed
  ((embeddings, chunks),
   { fs with faiss_index_file := some embeddings, chunks_file := some chunks })

/-- `load_index` (app.py lines 90-94): read both artifacts back. -/
def load_index (fs : Store) : Option (List (List ℚ) × List String) :=
  match fs.faiss_index_file, fs.chunks_file with
  | some index, some chunks => some (index, chunks)
  | _, _ => none

/-- Python list indexing `l[i]` with an Int index: a negative index
counts from the end; an index out of range raises (here `none`). -/
def pyGet {α : Type} (l : List α) (i : Int) : Option α :=
  if 0 ≤ i then l.get? i.toNat
  else if (l.length : Int) + i < 0 then none
  else l.get? ((l.length : Int) + i).toNat

/-- `retrieve` (app.py lines 99-102): embed the query, search the index
with `TOP_K`, and index the chunk list with each returned id
(`[chunks[i] for i in idxs[0]]`); `none` models an `IndexError`. -/
def retrieve (embed : String → List ℚ) (query : String)
    (index : List (List ℚ)) (chunks : List String) : Option (List String) :=
  (faiss_search index (embed query) TOP_K).mapM (pyGet chunks)

-- ---------------------------------------------------------------------
-- Helper lemmas about the chunking loop
-- ---------------------------------------------------------------------

theorem windowWalk_eq_startsFrom (words : List String) :
    ∀ start : Nat, windowWalk words start =
      (startsFrom words.length start).map
        (fun s => joinSpace ((words.drop s).take CHUNK_SIZE)) := by
  have key : ∀ (m start : Nat), words.length - start ≤ m →
      windowWalk words start =
        (startsFrom words.length start).map
          (fun s => joinSpace ((words.drop s).take CHUNK_SIZE)) := by
    intro m
    induction m with
    | zero =>
      intro start hle
      rw [windowWalk.eq_def, startsFrom.eq_def]
      have h : ¬ start < words.length := by omega
      simp [h]
    | succ m ih =>
      intro start hle
      rw [windowWalk.eq_def, startsFrom.eq_def]
      by_cases h : start < words.length
      · simp only [h, dif_pos, List.map_cons]
        congr 1
        apply ih
        have hso : 0 < CHUNK_SIZE - CHUNK_OVERLAP := by simp [CHUNK_SIZE, CHUNK_OVERLAP]
        omega
      · simp [h]
  intro start
  exact key (words.length - start) start le_rfl

theorem startsFrom_eq_range' (n : Nat) : ∀ start : Nat,
    startsFrom n start = List.range' start ((n - start + 499) / 500) 500 := by
  have key : ∀ (m start : Nat), n - start ≤ m →
      startsFrom n start = List.range' start ((n - start + 499) / 500) 500 := by
    intro m
    induction m with
    | zero =>
      intro start h
      rw [startsFrom.eq_def]
      have h1 : ¬ start < n := by omega
      have h2 : (n - start + 499) / 500 = 0 := by omega
      simp [h1, h2]
    | succ m ih =>
      intro start h
      rw [startsFrom.eq_def]
      by_cases h1 : start < n
      · have hcs : CHUNK_SIZE - CHUNK_OVERLAP = 500 := by simp [CHUNK_SIZE, CHUNK_OVERLAP]
        have h2 : (n - start + 499) / 500 = (n - (start + 500) + 499) / 500 + 1 := by omega
        rw [dif_pos h1, hcs, h2, ih (start + 500) (by omega)]
        simp [List.range']
      · simp only [h1, dif_neg, not_false_iff]
        have h2 : (n - start + 499) / 500 = 0 := by omega
        simp [h2]
  intro start
  exact key (n - start) start le_rfl

theorem range'_eq_map_range_mul : ∀ (k s : Nat),
    List.range' s k 500 = (List.range k).map (fun i => s + i * 500) := by
  intro k
  induction k with
  | zero => intro s; simp
  | succ k ih =>
    intro s
    rw [List.range_succ_eq_map]
    simp only [List.range', List.map_cons, List.map_map, Nat.zero_mul, Nat.add_zero]
    rw [ih (s + 500)]
    congr 1
    apply List.map_congr_left
    intro a _
    simp only [Function.comp_apply, Nat.succ_eq_add_one]
    ring

theorem windowWalk_zero (words : List String) :
    windowWalk words 0 =
      (windowStarts words.length).map
        (fun s => joinSpace ((words.drop s).take CHUNK_SIZE)) := by
  rw [windowWalk_eq_startsFrom, startsFrom_eq_range', range'_eq_map_range_mul]
  unfold windowStarts
  have hcs : CHUNK_SIZE - CHUNK_OVERLAP = 500 := by simp [CHUNK_SIZE, CHUNK_OVERLAP]
  rw [hcs]
  have harg : (words.length - 0 + 499) / 500 = (words.length + 500 - 1) / 500 := by omega
  rw [harg]
  simp only [List.map_map]
  apply List.map_congr_left
  intro a _
  simp

theorem chunk_text_eq (text : String) :
    chunk_text text =
      (((text.splitOn "=== PAGE").filter (fun p => ¬ p.trim = "")).map
        (fun p => windowWalk (wordsOf p) 0)).flatten := by
  unfold chunk_text
  generalize text.splitOn "=== PAGE" = pages
  suffices h : ∀ (ps : List String) (acc : List String),
      ps.foldl (fun chunks page =>
          if page.trim = "" then chunks
          else chunks ++ windowWalk (wordsOf page) 0) acc
        = acc ++ ((ps.filter (fun p => ¬ p.trim = "")).map
            (fun p => windowWalk (wordsOf p) 0)).flatten by
    simpa using h pages []
  intro ps
  induction ps with
  | nil => intro acc; simp
  | cons p ps ih =>
    intro acc
    by_cases hp : p.trim = ""
    · simp [hp, ih]
    · simp [hp, ih, List.append_assoc]

-- ---------------------------------------------------------------------
-- Claim C1
-- ---------------------------------------------------------------------

/-- Claim C1: the chunker splits the corpus on the page delimiter and,
for each non-blank segment with `n` words, produces exactly the windows
whose start indices are `0, S-O, 2(S-O), ...` for every start strictly
below `n`, the final window truncated to the remaining words; in
particular a 1000-word segment yields exactly two windows, at starts 0
and 500, the second holding the 500 words at indices 500-999. -/
theorem chunking_window_layout :
    (∀ text : String,
      chunk_text text =
        (((text.splitOn "=== PAGE").filter (fun p => ¬ p.trim = "")).map
          (fun p => (windowStarts (wordsOf p).length).map
            (fun s => joinSpace (((wordsOf p).drop s).take CHUNK_SIZE)))).flatten) ∧
    (∀ words : List String, words.length = 1000 →
      windowWalk words 0 = [joinSpace (words.take 600), joinSpace (words.drop 500)]) := by
  constructor
  · intro text
    rw [chunk_text_eq]
    congr 1
    apply List.map_congr_left
    intro p _
    exact windowWalk_zero (wordsOf p)
  · intro words h1000
    rw [windowWalk_zero]
    have hws : windowStarts words.length = [0, 500] := by
      rw [h1000]; decide
    rw [hws]
    simp only [List.map_cons, List.map_nil, List.drop_zero]
    have h1 : words.take CHUNK_SIZE = words.take 600 := by simp [CHUNK_SIZE]
    have h2 : (words.drop 500).take CHUNK_SIZE = words.drop 500 := by
      apply List.take_of_length_le
      simp [CHUNK_SIZE, List.length_drop, h1000]
    rw [h1, h2]

/-- Witness for the hypothesis of the second part of C1: a concrete
1000-word segment. -/
theorem chunking_window_layout_witness :
    (List.replicate 1000 "w").length = 1000 ∧
    windowWalk (List.replicate 1000 "w") 0 =
      [joinSpace ((List.replicate 1000 "w").take 600),
       joinSpace ((List.replicate 1000 "w").drop 500)] :=
  ⟨by rw [List.length_replicate], chunking_window_layout.2 (List.replicate 1000 "w") (by rw [List.length_replicate])⟩

-- ---------------------------------------------------------------------
-- Claim C7
-- ---------------------------------------------------------------------

/-- Claim C7: every chunk produced by `chunk_text` is a contiguous word
window drawn from the word list of exactly one page-block segment of the
split corpus; no chunk mixes words of two segments. -/
theorem chunk_single_page_block (text : String) :
    (chunk_text text).Forall (fun c =>
      ∃ p ∈ text.splitOn "=== PAGE", ∃ s : Nat,
        c = joinSpace (((wordsOf p).drop s).take CHUNK_SIZE)) := by
  rw [List.forall_iff_forall_mem]
  intro c hc
  rw [chunk_text_eq] at hc
  obtain ⟨l, hl, hcl⟩ := List.mem_flatten.mp hc
  obtain ⟨p, hp, hpl⟩ := List.mem_map.mp hl
  refine ⟨p, (List.mem_filter.mp hp).1, ?_⟩
  subst hpl
  rw [windowWalk_zero] at hcl
  obtain ⟨s, _, hs⟩ := List.mem_map.mp hcl
  exact ⟨s, hs.symm⟩

-- ---------------------------------------------------------------------
-- Helper lemmas relating the configured loop to the deployed one
-- ---------------------------------------------------------------------

theorem sliceIndex_natCast (n m : Nat) : sliceIndex n (m : Int) = min m n := by
  unfold sliceIndex
  have h : ¬ ((m : Int) < 0) := by omega
  simp [h]

theorem pySlice_natCast {α : Type} (l : List α) (s k : Nat) :
    pySlice l (s : Int) ((s : Int) + (k : Int)) = (l.drop s).take k := by
  have hadd : (s : Int) + (k : Int) = ((s + k : Nat) : Int) := by push_cast; ring
  unfold pySlice
  rw [hadd]
  simp only [sliceIndex_natCast]
  rcases le_or_lt l.length s with hns | hsn
  · rw [min_eq_right hns, min_eq_right (by omega : l.length ≤ s + k)]
    rw [Nat.sub_self, List.take_zero, List.drop_eq_nil_of_le hns]
    simp
  · rw [min_eq_left (by omega : s ≤ l.length)]
    apply (List.take_eq_take).mpr
    simp only [List.length_drop]
    omega

theorem windowLoopF_eq_windowWalk (words : List String) :
    ∀ (fuel start : Nat), words.length ≤ start + 500 * fuel →
      windowLoopF (CHUNK_SIZE : Int) (CHUNK_OVERLAP : Int) words (start : Int) (fuel + 1) =
        some (windowWalk words start) := by
  intro fuel
  induction fuel with
  | zero =>
    intro start h
    have hguard : ¬ ((start : Int) < (words.length : Int)) := by
      omega
    rw [windowLoopF, if_neg hguard, windowWalk.eq_def, dif_neg (by omega)]
  | succ fuel ih =>
    intro start h
    by_cases hlt : start < words.length
    · have hguard : (start : Int) < (words.length : Int) := by omega
      rw [windowLoopF, if_pos hguard]
      have harith : (start : Int) + ((CHUNK_SIZE : Int) - (CHUNK_OVERLAP : Int)) =
          ((start + 500 : Nat) : Int) := by
        simp only [CHUNK_SIZE, CHUNK_OVERLAP]
        push_cast
        ring
      rw [harith, ih (start + 500) (by omega)]
      dsimp only
      rw [pySlice_natCast]
      conv_rhs => rw [windowWalk.eq_def]
      rw [dif_pos hlt]
      have hstep : start + (CHUNK_SIZE - CHUNK_OVERLAP) = start + 500 := by
        simp [CHUNK_SIZE, CHUNK_OVERLAP]
      rw [hstep]
    · have hguard : ¬ ((start : Int) < (words.length : Int)) := by omega
      rw [windowLoopF, if_neg hguard, windowWalk.eq_def, dif_neg hlt]

-- ---------------------------------------------------------------------
-- Claim C2
-- ---------------------------------------------------------------------

/-- Counterexample to claim C2: with a configuration whose overlap
equals its size (600/600) the chunker neither rejects nor clamps the
configuration - the window walk simply makes zero progress and never
finishes on a one-word segment, whatever iteration budget it is given. -/
theorem chunker_overlap_guard_cex : loopDiverges 600 600 ["w"] := by
  intro fuel
  induction fuel with
  | zero => rfl
  | succ fuel ih =>
    rw [windowLoopF]
    have hguard : (0 : Int) < ((["w"].length : Nat) : Int) := by simp
    rw [if_pos hguard]
    have harith : (0 : Int) + ((600 : Int) - (600 : Int)) = 0 := by ring
    rw [harith, ih]

/-- Amended claim C2: the chunker has no overlap-versus-size guard at
all; termination holds only because the deployed configuration
`CHUNK_SIZE = 600`, `CHUNK_OVERLAP = 100` makes the window walk advance
by `500 > 0` words per iteration, so on every word list the loop
finishes (within `length / 500 + 1` iterations) with the windows of
`windowWalk`; a configuration with overlap equal to the size diverges. -/
theorem chunker_progress_amended :
    CHUNK_SIZE - CHUNK_OVERLAP = 500 ∧
    (∀ (words : List String) (fuel : Nat), words.length ≤ 500 * fuel →
      windowLoopF (CHUNK_SIZE : Int) (CHUNK_OVERLAP : Int) words 0 (fuel + 1) =
        some (windowWalk words 0)) := by
  constructor
  · simp [CHUNK_SIZE, CHUNK_OVERLAP]
  · intro words fuel h
    have h0 : ((0 : Nat) : Int) = (0 : Int) := rfl
    rw [← h0]
    exact windowLoopF_eq_windowWalk words fuel 0 (by omega)

/-- Witness for the hypothesis of the amended claim C2, at a concrete
two-word list and fuel 1. -/
theorem chunker_progress_amended_witness :
    (["a", "b"].length ≤ 500 * 1) ∧
    windowLoopF (CHUNK_SIZE : Int) (CHUNK_OVERLAP : Int) ["a", "b"] 0 (1 + 1) =
      some (windowWalk ["a", "b"] 0) :=
  ⟨by simp, chunker_progress_amended.2 ["a", "b"] 1 (by simp)⟩

-- ---------------------------------------------------------------------
-- Claim C3
-- ---------------------------------------------------------------------

/-- Claim C3: for every page bounds and margins the computed clip
rectangle equals `(x0+left, y0+top, x1-right, y1-bottom)`; in
particular, for page bounds `(0,0,612,792)` and margins `L0 T60 R0 B30`
both clippers yield exactly `(0,60,612,762)`. -/
theorem clip_rect_formula :
    (∀ (get_text : Rect → String) (rect : Rect) (l t r b : ℚ),
      (extract_text_with_margins get_text rect l t r b).2 =
        { x0 := rect.x0 + l, y0 := rect.y0 + t, x1 := rect.x1 - r, y1 := rect.y1 - b }) ∧
    (extract_text_with_margins (fun _ => "") { x0 := 0, y0 := 0, x1 := 612, y1 := 792 }
        0 60 0 30).2 = { x0 := 0, y0 := 60, x1 := 612, y1 := 762 } ∧
    extract_clip_rect { x0 := 0, y0 := 0, x1 := 612, y1 := 792 } =
      { x0 := 0, y0 := 60, x1 := 612, y1 := 762 } := by
  refine ⟨fun _ _ _ _ _ _ => rfl, ?_, ?_⟩
  · simp only [extract_text_with_margins]
    norm_num
  · simp only [extract_clip_rect, MARGIN_LEFT, MARGIN_TOP, MARGIN_RIGHT, MARGIN_BOTTOM]
    norm_num

-- ---------------------------------------------------------------------
-- Claim C4
-- ---------------------------------------------------------------------

/-- Counterexample to claim C4: with page bounds `(0,0,612,792)` and a
top margin of 800 the derived rectangle is inverted (`y1 < y0`), yet the
clipper returns that negative-area rectangle - its return type carries
no error at all, so no invalid-region error is signalled. -/
theorem clipper_no_degeneracy_check_cex :
    (extract_text_with_margins (fun _ => "") { x0 := 0, y0 := 0, x1 := 612, y1 := 792 }
        0 800 0 30).2 = { x0 := 0, y0 := 800, x1 := 612, y1 := 762 } ∧
    ((extract_text_with_margins (fun _ => "") { x0 := 0, y0 := 0, x1 := 612, y1 := 792 }
        0 800 0 30).2).y1 <
      ((extract_text_with_margins (fun _ => "") { x0 := 0, y0 := 0, x1 := 612, y1 := 792 }
        0 800 0 30).2).y0 := by
  constructor
  · simp only [extract_text_with_margins]
    norm_num
  · simp only [extract_text_with_margins]
    norm_num

/-- Amended claim C4: the clipper performs no degeneracy check - for
margins that make the rectangle degenerate or inverted it still returns
the rectangle `(x0+left, y0+top, x1-right, y1-bottom)` unchanged, a
rectangle with `x1 ≤ x0` or `y1 ≤ y0`, instead of signalling an
invalid-region error. -/
theorem clipper_returns_degenerate_rect (get_text : Rect → String) (rect : Rect)
    (l t r b : ℚ)
    (h : rect.x1 - r ≤ rect.x0 + l ∨ rect.y1 - b ≤ rect.y0 + t) :
    (extract_text_with_margins get_text rect l t r b).2 =
      { x0 := rect.x0 + l, y0 := rect.y0 + t, x1 := rect.x1 - r, y1 := rect.y1 - b } ∧
    ((extract_text_with_margins get_text rect l t r b).2.x1 ≤
        (extract_text_with_margins get_text rect l t r b).2.x0 ∨
      (extract_text_with_margins get_text rect l t r b).2.y1 ≤
        (extract_text_with_margins get_text rect l t r b).2.y0) := by
  refine ⟨rfl, ?_⟩
  rcases h with h | h
  · exact Or.inl h
  · exact Or.inr h

/-- Witness for the amended claim C4, at page bounds `(0,0,612,792)` and
top margin 800: `792 - 30 ≤ 0 + 800`. -/
theorem clipper_returns_degenerate_rect_witness :
    ((612 : ℚ) - 0 ≤ 0 + 0 ∨ (792 : ℚ) - 30 ≤ 0 + 800) ∧
    ((extract_text_with_margins (fun _ => "") { x0 := 0, y0 := 0, x1 := 612, y1 := 792 }
        0 800 0 30).2 =
      { x0 := (0 : ℚ) + 0, y0 := 0 + 800, x1 := 612 - 0, y1 := 792 - 30 } ∧
    ((extract_text_with_margins (fun _ => "") { x0 := 0, y0 := 0, x1 := 612, y1 := 792 }
        0 800 0 30).2.x1 ≤
        (extract_text_with_margins (fun _ => "") { x0 := 0, y0 := 0, x1 := 612, y1 := 792 }
        0 800 0 30).2.x0 ∨
      (extract_text_with_margins (fun _ => "") { x0 := 0, y0 := 0, x1 := 612, y1 := 792 }
        0 800 0 30).2.y1 ≤
        (extract_text_with_margins (fun _ => "") { x0 := 0, y0 := 0, x1 := 612, y1 := 792 }
        0 800 0 30).2.y0)) :=
  ⟨Or.inr (by norm_num),
   clipper_returns_degenerate_rect (fun _ => "") { x0 := 0, y0 := 0, x1 := 612, y1 := 792 }
     0 800 0 30 (Or.inr (by norm_num))⟩

-- ---------------------------------------------------------------------
-- Claim C5
-- ---------------------------------------------------------------------

/-- Counterexample to claim C5: the crop box is not clamped to the
rendered image bounds.  A 612 by 792 page rendered at scale `2000/792`
is 1545 pixels wide (`int(612 * 2000/792) = 1545`), yet for the clip
rectangle `(0, 60, 662, 762)` (reachable with right margin `-50`) the
code produces the box `(0, 151, 1671, 1924)` whose `x1 = 1671` lies
outside that image; the box is built from the clip rectangle and scale
alone and handed to the image crop unchanged. -/
theorem int_trunc_eq_floor (q : ℚ) (hq : 0 ≤ q) : int_trunc q = ⌊q⌋ := by
  rw [int_trunc, Int.tdiv_eq_ediv (Rat.num_nonneg.mpr hq) (by positivity), Rat.floor_def]

theorem crop_box_not_clamped_cex :
    int_trunc (612 * dpi_scale 2000 792) = 1545 ∧
    crop_box { x0 := 0, y0 := 60, x1 := 662, y1 := 762 } (dpi_scale 2000 792) =
      (0, 151, 1671, 1924) ∧
    ¬ ((1671 : Int) ≤ 1545) := by
  refine ⟨?_, ?_, by decide⟩
  · rw [int_trunc_eq_floor _ (by norm_num [dpi_scale])]
    norm_num [dpi_scale, Int.floor_eq_iff]
  · simp only [crop_box]
    refine Prod.ext ?_ (Prod.ext ?_ (Prod.ext ?_ ?_)) <;>
      simp only <;>
      rw [int_trunc_eq_floor _ (by norm_num [dpi_scale])] <;>
      norm_num [dpi_scale, Int.floor_eq_iff]

/-- Amended claim C5: each of the four pixel crop-box coordinates is the
corresponding clip coordinate multiplied by the render scale and
truncated toward zero (`y0 = 60` at scale `2000/792` gives pixel
`y0 = 151`), and the box is passed to the image crop exactly as
computed: no clamping to the rendered image bounds is performed. -/
theorem crop_box_truncation :
    (∀ (clip_rect : Rect) (scale : ℚ),
      crop_box clip_rect scale =
        (int_trunc (clip_rect.x0 * scale), int_trunc (clip_rect.y0 * scale),
         int_trunc (clip_rect.x1 * scale), int_trunc (clip_rect.y1 * scale))) ∧
    int_trunc (60 * dpi_scale 2000 792) = 151 ∧
    (∀ (α : Type) (crop : Int × Int × Int × Int → α) (clip_rect : Rect) (imgH pageH : ℚ),
      render_clipped_image crop clip_rect imgH pageH =
        crop (crop_box clip_rect (dpi_scale imgH pageH))) := by
  refine ⟨fun _ _ => rfl, ?_, fun _ _ _ _ _ => rfl⟩
  rw [int_trunc_eq_floor _ (by norm_num [dpi_scale])]
  norm_num [dpi_scale, Int.floor_eq_iff]

-- ---------------------------------------------------------------------
-- Claim C6
-- ---------------------------------------------------------------------

/-- Claim C6: building the index then persisting then loading yields a
chunk list and vector table element-wise identical (here: equal) to the
pre-persist pair, and searching the reloaded vector table gives results
identical to searching the original one for every query vector. -/
theorem index_roundtrip (embed : String → List ℚ) (text : String) (fs : Store) :
    load_index ((build_and_save_index embed text fs).2) =
      some ((build_and_save_index embed text fs).1.1,
            (build_and_save_index embed text fs).1.2) ∧
    (∀ (q : List ℚ) (k : Nat),
      faiss_search (((load_index ((build_and_save_index embed text fs).2)).getD ([], [])).1) q k =
        faiss_search ((build_and_save_index embed text fs).1.1) q k) :=
  ⟨rfl, fun _ _ => rfl⟩

-- ---------------------------------------------------------------------
-- Claim C8
-- ---------------------------------------------------------------------

/-- Claim C8: two consecutive appends to the corpus store produce the
previous file content followed by exactly two framed page blocks in
append order, whatever the two page ordinals are; the prior content `f`
(hence every previously written block) is preserved verbatim as a
prefix, and from an empty file the result is exactly the two blocks. -/
theorem corpus_two_appends (f : String) (p1 p2 : Nat) (c1 c2 : String) :
    append_to_output (append_to_output f p1 c1) p2 c2 =
      f ++ page_block p1 c1 ++ page_block p2 c2 ∧
    append_to_output (append_to_output "" p1 c1) p2 c2 =
      page_block p1 c1 ++ page_block p2 c2 := by
  constructor
  · simp only [append_to_output, page_block, String.append_assoc]
  · simp only [append_to_output, page_block, String.append_assoc]
    rfl

-- ---------------------------------------------------------------------
-- Claim C9
-- ---------------------------------------------------------------------

/-- Counterexample to claim C9: when the external editor program fails
to start, the exception raised by `subprocess.call` propagates out of
`launch_editor` before the `os.unlink` line runs, so the seeded
temporary file is not removed on that exit path. -/
theorem editor_temp_leak_cex :
    (launch_editor "seed" EditorRun.startFailure).tempRemoved = false ∧
    (launch_editor "seed" EditorRun.startFailure).tempContent = some "seed" ∧
    (launch_editor "seed" EditorRun.startFailure).returned = none :=
  ⟨rfl, rfl, rfl⟩

/-- Amended claim C9: the temporary file is removed on every exit path
on which the editor program actually starts - whatever exit code it
returns, the edited content is read back and the file unlinked - but on
the path where the editor fails to start the exception propagates first
and the temporary file survives. -/
theorem editor_temp_cleanup (initial_text : String) (exit_code : Int) (edited : String) :
    (launch_editor initial_text (EditorRun.runs exit_code edited)).tempRemoved = true ∧
    (launch_editor initial_text (EditorRun.runs exit_code edited)).returned = some edited ∧
    (launch_editor initial_text EditorRun.startFailure).tempRemoved = false :=
  ⟨rfl, rfl, rfl⟩

-- ---------------------------------------------------------------------
-- Helper lemmas about mapM over Option
-- ---------------------------------------------------------------------

theorem mapM_some_of_isSome {α β : Type} (f : α → Option β) :
    ∀ l : List α, (∀ a ∈ l, (f a).isSome) →
      ∃ r : List β, l.mapM f = some r ∧ r.length = l.length := by
  intro l
  induction l with
  | nil => intro _; exact ⟨[], rfl, rfl⟩
  | cons a l ih =>
    intro h
    obtain ⟨b, hb⟩ := Option.isSome_iff_exists.mp (h a (by simp))
    obtain ⟨r, hr, hrlen⟩ := ih (fun x hx => h x (by simp [hx]))
    refine ⟨b :: r, ?_, by simp [hrlen]⟩
    rw [List.mapM_cons, hb, hr]
    rfl

theorem mapM_replicate {α β : Type} (f : α → Option β) (x : α) (y : β)
    (hf : f x = some y) :
    ∀ m : Nat, (List.replicate m x).mapM f = some (List.replicate m y) := by
  intro m
  induction m with
  | zero => rfl
  | succ m ih =>
    rw [List.replicate_succ, List.mapM_cons, hf, ih, List.replicate_succ]
    rfl

-- ---------------------------------------------------------------------
-- Claim C10
-- ---------------------------------------------------------------------

/-- Claim C10: when the index holds fewer than `TOP_K` vectors and the
chunk list is non-empty (and aligned with the index), `retrieve` still
returns a list of exactly `TOP_K` entries: the nearest-neighbour search
pads the missing slots with id `-1`, Python indexing with `-1` resolves
to the last chunk, so every padded slot is filled with the last chunk
rather than the result being shortened. -/
theorem retrieve_pads_with_last_chunk (embed : String → List ℚ) (query : String)
    (index : List (List ℚ)) (chunks : List String)
    (hlen : index.length = chunks.length) (hne : chunks ≠ []) (hk : index.length < TOP_K) :
    pyGet chunks (-1) = some (chunks.getLast hne) ∧
    ∃ front : List String,
      retrieve embed query index chunks =
        some (front ++ List.replicate (TOP_K - index.length) (chunks.getLast hne)) ∧
      front.length = index.length ∧
      (front ++ List.replicate (TOP_K - index.length) (chunks.getLast hne)).length = TOP_K := by
  have hpos : 0 < chunks.length := List.length_pos.mpr hne
  have hgetlast : pyGet chunks (-1) = some (chunks.getLast hne) := by
    rw [pyGet, if_neg (by omega), if_neg (by omega)]
    have h3 : ((chunks.length : Int) + (-1)).toNat = chunks.length - 1 := by omega
    rw [h3, List.get?_eq_get (by omega : chunks.length - 1 < chunks.length)]
    congr 1
    simp [List.getLast_eq_getElem]
  refine ⟨hgetlast, ?_⟩
  simp only [retrieve, faiss_search]
  set qv := embed query with hqv
  set sorted := ((index.map (sqDist qv)).enum).mergeSort
      (fun a b => decide (a.2 < b.2 ∨ (a.2 = b.2 ∧ a.1 ≤ b.1))) with hsorted
  have hslen : sorted.length = index.length := by
    rw [hsorted, List.length_mergeSort, List.enum_length, List.length_map]
  have htake : sorted.take TOP_K = sorted := List.take_of_length_le (by omega)
  rw [htake]
  set ids := sorted.map (fun p => ((p.1 : Nat) : Int)) with hids
  have hidslen : ids.length = index.length := by rw [hids, List.length_map, hslen]
  have hvalid : ∀ i ∈ ids, (pyGet chunks i).isSome := by
    intro i hi
    rw [hids] at hi
    obtain ⟨p, hp, hpi⟩ := List.mem_map.mp hi
    have hpmem : p ∈ (index.map (sqDist qv)).enum := by
      have hperm := List.mergeSort_perm ((index.map (sqDist qv)).enum)
        (fun a b => decide (a.2 < b.2 ∨ (a.2 = b.2 ∧ a.1 ≤ b.1)))
      exact hperm.mem_iff.mp (hsorted ▸ hp)
    obtain ⟨i0, x⟩ := p
    rw [List.enum] at hpmem
    have hbound : i0 < index.length := by
      have := List.mem_enumFrom hpmem
      simpa using this.2.1
    rw [← hpi, pyGet, if_pos (by omega : (0 : Int) ≤ ((i0 : Nat) : Int))]
    have htn : (((i0 : Nat) : Int)).toNat = i0 := by simp
    rw [htn, List.get?_eq_get (by omega : i0 < chunks.length)]
    rfl
  obtain ⟨front, hfront, hflen⟩ := mapM_some_of_isSome (pyGet chunks) ids hvalid
  have hrep := mapM_replicate (pyGet chunks) (-1) (chunks.getLast hne) hgetlast
    (TOP_K - ids.length)
  refine ⟨front, ?_, by omega, ?_⟩
  · rw [List.mapM_append, hfront, hrep, hidslen]
    rfl
  · simp only [List.length_append, List.length_replicate]
    omega

/-- Witness for the hypotheses of claim C10: one stored vector, one
chunk, `1 < TOP_K`. -/
theorem retrieve_pads_with_last_chunk_witness :
    ([[(0 : ℚ)]].length = ["a"].length ∧ ["a"] ≠ ([] : List String) ∧
      [[(0 : ℚ)]].length < TOP_K) ∧
    (pyGet ["a"] (-1) = some (["a"].getLast (by decide)) ∧
     ∃ front : List String,
       retrieve (fun _ => [0]) "q" [[(0 : ℚ)]] ["a"] =
         some (front ++ List.replicate (TOP_K - [[(0 : ℚ)]].length)
           (["a"].getLast (by decide))) ∧
       front.length = [[(0 : ℚ)]].length ∧
       (front ++ List.replicate (TOP_K - [[(0 : ℚ)]].length)
         (["a"].getLast (by decide))).length = TOP_K) :=
  ⟨⟨rfl, by decide, by decide⟩,
   retrieve_pads_with_last_chunk (fun _ => [0]) "q" [[(0 : ℚ)]] ["a"] rfl
     (by decide) (by decide)⟩
